import Mathlib

/-!
Verification of the homebound-community client-side controllers.

The development embeds the two stateful controllers of the repository:

* `StickyNavController` (src/utils/sticky-nav.ts): scroll-synced sticky
  navigation.  Links carry a `dev-target` attribute and an `is-active` CSS
  class; an IntersectionObserver maintains a set of visible section names and
  the first member of `sectionOrder` present in that set becomes the active
  link.
* `GalleryController` (src/utils/gallery.ts): full-screen gallery overlay
  with a per-config image cache refreshed wholesale by a MutationObserver.

DOM state is modelled explicitly: a nav link is its `dev-target` attribute
plus its active flag, the document is an association list from element ids to
document-top offsets, and the gallery DOM is the list of overlay elements
attached to `document.body`.
-/

namespace Homebound

/-! ## Sticky nav: static tables (src/utils/sticky-nav.ts, lines 15-34) -/

/-- `sectionMap`: maps dev-target attribute values to their corresponding
section IDs.  A record lookup in the source; unknown keys give `undefined`,
modelled as `none`. -/
def sectionMap : String → Option String := fun s =>
  if s = "overview" then some "overview-section"
  else if s = "floor-plans" then some "floor-plans-section"
  else if s = "amentities" then some "amentities-section"
  else if s = "personalisation" then some "personalization-section"
  else if s = "browse-homes" then some "lots-section"
  else if s = "process" then some "process-section"
  else none

/-- `sectionOrder`: ordered list of dev-target values matching the
top-to-bottom page section order. -/
def sectionOrder : List String :=
  ["overview", "floor-plans", "amentities", "personalisation", "browse-homes"]

/-- `getDevTargetBySectionId`: reverse lookup from a section id to the first
key of `sectionOrder` that maps to it, `null` when there is none. -/
def getDevTargetBySectionId (sectionId : String) : Option String :=
  sectionOrder.find? (fun key => sectionMap key == some sectionId)

/-! ## Nav links and the active flag -/

/-- A nav link element: its `dev-target` attribute (absent or present) and
whether it currently carries the `is-active` class. -/
structure Link where
  devTarget : Option String
  isActive : Bool
deriving DecidableEq

/-- `setActiveLink` (lines 145-151): toggles `is-active` on every link so
that exactly the links whose `dev-target` attribute equals the given name
carry the class. -/
def setActiveLink (links : List Link) (targetName : String) : List Link :=
  links.map fun l => { l with isActive := l.devTarget == some targetName }

/-- Number of links currently carrying the `is-active` class. -/
def countActive (links : List Link) : Nat :=
  links.countP (fun l => l.isActive)

/-- The rAF callback inside `init` (lines 50-59): pick the link already
marked `is-active` (falling back to the first link) and add the `is-active`
class to it.  Adding the class to a link that already carries it leaves the
list unchanged, which the first match arm reflects; the strip-centering call
does not touch any active flag. -/
def initActivate (links : List Link) : List Link :=
  match links.find? (fun l => l.isActive) with
  | some _ => links
  | none =>
    match links with
    | [] => []
    | l :: rest => { l with isActive := true } :: rest

/-! ## The intersection observer callback (lines 108-131) -/

/-- One IntersectionObserverEntry, reduced to the fields the callback
reads: `entry.target.id` and `entry.isIntersecting`. -/
structure Entry where
  targetId : String
  isIntersecting : Bool
deriving DecidableEq

/-- JS `Set.add`: no-op when the element is already present. -/
def setAdd (s : List String) (x : String) : List String :=
  if x ∈ s then s else s ++ [x]

/-- JS `Set.delete`: removes the element. -/
def setDelete (s : List String) (x : String) : List String :=
  s.filter (fun y => y != x)

/-- Body of the per-entry loop (lines 111-120): resolve the dev-target of
the entry via the reverse lookup, skip unmapped ids, and add or delete the
name from `visibleSections`. -/
def processEntry (s : List String) (e : Entry) : List String :=
  match getDevTargetBySectionId e.targetId with
  | none => s
  | some devTarget =>
      if e.isIntersecting then setAdd s devTarget else setDelete s devTarget

/-- All entries of one observation batch, applied in arrival order. -/
def processEntries (s : List String) (es : List Entry) : List String :=
  es.foldl processEntry s

/-- Mutable state of the controller touched by the claims: the collected
links and `visibleSections`. -/
structure NavState where
  links : List Link
  visibleSections : List String
deriving DecidableEq

/-- The target chosen by a batch (line 122): the first name of
`sectionOrder` present in the visible set after every entry of the batch has
been applied. -/
def batchActiveTarget (s : List String) (es : List Entry) : Option String :=
  sectionOrder.find? (fun t => (processEntries s es).contains t)

/-- The whole observer callback (lines 110-126): apply the batch, then mark
the first visible name of `sectionOrder` active; when no mapped section is
visible, the links are left untouched. -/
def observerCallback (st : NavState) (es : List Entry) : NavState :=
  match sectionOrder.find? (fun t => (processEntries st.visibleSections es).contains t) with
  | some t => ⟨setActiveLink st.links t, processEntries st.visibleSections es⟩
  | none => ⟨st.links, processEntries st.visibleSections es⟩

/-- `destroy` (lines 182-186): disconnect the observer and clear
`visibleSections`; the links are untouched. -/
def destroyNav (st : NavState) : NavState :=
  ⟨st.links, []⟩

/-! ## The click handler (lines 67-95) -/

/-- The document, as the click handler sees it: element ids paired with
their document-top offsets (`getBoundingClientRect().top + scrollY`), plus
the current vertical scroll position. -/
structure Doc where
  sections : List (String × Int)
  scrollY : Int

/-- `document.getElementById`, returning the document-top offset of the
section when present. -/
def getElementById (doc : Doc) (sectionId : String) : Option Int :=
  (doc.sections.find? (fun p => p.1 == sectionId)).map (fun p => p.2)

/-- Per-link context of a click: the height of the closest `.tab-header`
ancestor, absent when the link has none. -/
structure ClickCtx where
  navBarHeight : Option Int

/-- Everything a click produces: the resulting link list, the destination
handed to `window.scrollTo` (absent when no scroll was issued), and the
console-error messages emitted. -/
structure ClickOutcome where
  links : List Link
  scrollTo : Option Int
  logs : List String
deriving DecidableEq

/-- The click listener body (lines 69-93).  Guards in source order: a falsy
`dev-target` attribute returns silently, an unmapped target returns
silently, a missing section logs and returns; otherwise the handler computes
`section.getBoundingClientRect().top + window.scrollY - navHeight`, issues
the smooth scroll, and marks the link active immediately. -/
def clickHandler (links : List Link) (doc : Doc) (link : Link)
    (ctx : ClickCtx) : ClickOutcome :=
  match link.devTarget with
  | none => ⟨links, none, []⟩
  | some target =>
      if target = "" then ⟨links, none, []⟩
      else
        match sectionMap target with
        | none => ⟨links, none, []⟩
        | some sectionId =>
            match getElementById doc sectionId with
            | none =>
                ⟨links, none,
                  ["StickyNavController: Section #" ++ sectionId ++ " not found."]⟩
            | some docTop =>
                let navHeight := ctx.navBarHeight.getD 0
                let sectionTop := docTop - doc.scrollY + doc.scrollY - navHeight
                ⟨setActiveLink links target, some sectionTop, []⟩

/-! ## Mobile strip centering (src/utils/sticky-nav.ts, lines 163-176) -/

/-- The geometry `scrollLinkIntoStrip` reads: viewport width, the strip
offsetWidth and scrollWidth, and the offsetLeft and offsetWidth of the
link (the strip is its offsetParent). -/
structure StripGeom where
  innerWidth : ℚ
  stripOffsetWidth : ℚ
  stripScrollWidth : ℚ
  linkOffsetLeft : ℚ
  linkOffsetWidth : ℚ

/-- `scrollLinkIntoStrip`: no scroll above the 767px breakpoint or when the
link has no `[dev-target="tab-left"]` ancestor; otherwise the centering
offset clamped by `Math.min (Math.max 0 target) maxScroll`. -/
def scrollLinkIntoStrip (g : StripGeom) (stripPresent : Bool) : Option ℚ :=
  if g.innerWidth > 767 then none
  else if stripPresent = false then none
  else
    let targetScrollLeft :=
      g.linkOffsetLeft + g.linkOffsetWidth / 2 - g.stripOffsetWidth / 2
    let maxScroll := g.stripScrollWidth - g.stripOffsetWidth
    some (min (max 0 targetScrollLeft) maxScroll)

/-! ## Gallery controller (src/utils/gallery.ts) -/

/-- One gallery configuration (lines 4-11): the trigger dev-target, the
image dev-target, and the CMS container selector to watch. -/
structure GalleryConfig where
  trigger : String
  imageAttr : String
  containerClass : String
deriving DecidableEq

/-- `GALLERY_CONFIGS` (lines 13-24). -/
def GALLERY_CONFIGS : List GalleryConfig :=
  [⟨"image-gallery", "hidden-main-gallery-images", ".hidden-main-gallery-collection"⟩,
   ⟨"community-gallery", "hidden-community-gallery-images", ".hidden-community-gallery-collection"⟩]

/-- An image element: its source URL and its `dev-target` attribute. -/
structure ImgElem where
  src : String
  devTarget : Option String
deriving DecidableEq

/-- The document-ordered query
`document.querySelectorAll('img[dev-target="..."]')` over a document given
as its image elements in document order. -/
def queryImages (doc : List ImgElem) (attr : String) : List ImgElem :=
  doc.filter (fun i => i.devTarget == some attr)

/-- The `refresh` closure of `observeImages` (lines 59-66), run at init and
on every child-list mutation of the watched container: replace the cache
entry of the config wholesale with the current query result.  The cache map
is modelled as a function from trigger keys to image lists. -/
def refreshTrigger (caches : String → List ImgElem) (config : GalleryConfig)
    (doc : List ImgElem) : String → List ImgElem :=
  fun k => if k = config.trigger then queryImages doc config.imageAttr else caches k

/-- One overlay element attached to `document.body`: an identity, the image
sources built into its slides, whether it carries the `is-open` class, and
whether `close` has registered its once-only transitionend listener on it. -/
structure Overlay where
  oid : Nat
  imgs : List String
  isOpen : Bool
  hasCloseListener : Bool
deriving DecidableEq

/-- The gallery DOM-and-controller state: `this.overlay` (by identity), the
overlay elements currently in `document.body`, and a fresh-identity
counter. -/
structure GState where
  overlayRef : Option Nat
  body : List Overlay
  nextId : Nat
deriving DecidableEq

/-- `close` (lines 187-203): when an overlay is referenced, remove its
`is-open` class and register the transitionend listener that will later
destroy it; the element itself stays in the document and `this.overlay`
keeps pointing at it until that listener fires. -/
def closeGallery (st : GState) : GState :=
  match st.overlayRef with
  | none => st
  | some oid =>
      { st with
        body := st.body.map (fun o =>
          if o.oid = oid then { o with isOpen := false, hasCloseListener := true } else o) }

/-- `open` (lines 102-155): close any current instance first, then build a
fresh overlay holding one slide per cached image and append it to
`document.body`; `is-open` is only added by the rAF that follows. -/
def openGallery (st : GState) (imgs : List String) : GState :=
  let st1 := closeGallery st
  { overlayRef := some st1.nextId,
    body := st1.body ++ [{ oid := st1.nextId, imgs := imgs, isOpen := false,
                           hasCloseListener := false }],
    nextId := st1.nextId + 1 }

/-- The rAF scheduled at the end of `open` (lines 182-184): add `is-open`
to the overlay currently referenced by the controller. -/
def galleryRAF (st : GState) : GState :=
  match st.overlayRef with
  | none => st
  | some oid =>
      { st with
        body := st.body.map (fun o =>
          if o.oid = oid then { o with isOpen := true } else o) }

/-! ## Reachable controller states -/

/-- States the sticky-nav controller can reach: it starts with an empty
`visibleSections`, and steps by observer batches, the init rAF callback,
clicks, and `destroy`. -/
inductive Reachable : NavState → Prop where
  | start : ∀ links, Reachable ⟨links, []⟩
  | observe : ∀ st es, Reachable st → Reachable (observerCallback st es)
  | initStep : ∀ st, Reachable st → Reachable ⟨initActivate st.links, st.visibleSections⟩
  | clickStep : ∀ st doc link ctx, Reachable st →
      Reachable ⟨(clickHandler st.links doc link ctx).links, st.visibleSections⟩
  | destroyStep : ∀ st, Reachable st → Reachable (destroyNav st)

/-! ## Lemmas about the reverse lookup -/

lemma getDevTarget_mem {sid t : String}
    (h : getDevTargetBySectionId sid = some t) : t ∈ sectionOrder :=
  List.mem_of_find?_eq_some h

lemma getDevTarget_map {sid t : String}
    (h : getDevTargetBySectionId sid = some t) : sectionMap t = some sid := by
  have hp := List.find?_some h
  simpa using hp

lemma getDevTarget_inj {a b t : String}
    (ha : getDevTargetBySectionId a = some t)
    (hb : getDevTargetBySectionId b = some t) : a = b := by
  have h1 := getDevTarget_map ha
  have h2 := getDevTarget_map hb
  rw [h1] at h2
  exact Option.some.inj h2

/-! ## Lemmas about set operations and batch processing -/

lemma mem_setAdd {s : List String} {x t : String} :
    t ∈ setAdd s x ↔ t ∈ s ∨ t = x := by
  unfold setAdd
  by_cases h : x ∈ s
  · simp only [if_pos h]
    constructor
    · exact Or.inl
    · rintro (h1 | rfl)
      · exact h1
      · exact h
  · simp [if_neg h]

lemma mem_setDelete {s : List String} {x t : String} :
    t ∈ setDelete s x ↔ t ∈ s ∧ t ≠ x := by
  unfold setDelete
  simp [List.mem_filter]

/-- The entry `e` carries a report about the logical section name `t`. -/
def affects (e : Entry) (t : String) : Prop :=
  getDevTargetBySectionId e.targetId = some t

lemma mem_processEntry_pos {s : List String} {e : Entry} {t : String}
    (h : affects e t) (hi : e.isIntersecting = true) :
    t ∈ processEntry s e := by
  unfold processEntry
  rw [h, hi]
  simp [mem_setAdd]

lemma not_mem_processEntry_neg {s : List String} {e : Entry} {t : String}
    (h : affects e t) (hi : e.isIntersecting = false) :
    t ∉ processEntry s e := by
  unfold processEntry
  rw [h, hi]
  simp [mem_setDelete]

lemma mem_processEntry_of_not_affects {s : List String} {e : Entry} {t : String}
    (h : ¬ affects e t) : t ∈ processEntry s e ↔ t ∈ s := by
  unfold processEntry
  cases hd : getDevTargetBySectionId e.targetId with
  | none => rfl
  | some d =>
      have hne : t ≠ d := fun e' => h (e' ▸ hd)
      cases hi : e.isIntersecting with
      | true => simp [mem_setAdd, hne]
      | false => simp [mem_setDelete, hne]

lemma processEntries_cons (s : List String) (e : Entry) (es : List Entry) :
    processEntries s (e :: es) = processEntries (processEntry s e) es := rfl

lemma mem_processEntries_of_not_affects {t : String} :
    ∀ {es : List Entry} {s : List String}, (∀ e ∈ es, ¬ affects e t) →
      (t ∈ processEntries s es ↔ t ∈ s) := by
  intro es
  induction es with
  | nil => intro s _; rfl
  | cons e rest ih =>
      intro s h
      rw [processEntries_cons,
        ih (fun e' he' => h e' (List.mem_cons_of_mem e he')),
        mem_processEntry_of_not_affects (h e (List.mem_cons_self e rest))]

/-- Membership in the visible set after a batch whose entries report
pairwise-distinct elements, characterised without reference to the order in
which the entries arrived. -/
lemma mem_processEntries_char {t : String} :
    ∀ {es : List Entry} {s : List String},
      es.Pairwise (fun a b => a.targetId ≠ b.targetId) →
      (t ∈ processEntries s es ↔
        (∃ e ∈ es, affects e t ∧ e.isIntersecting = true) ∨
        (t ∈ s ∧ ¬ ∃ e ∈ es, affects e t ∧ e.isIntersecting = false)) := by
  intro es
  induction es with
  | nil => intro s _; simp [processEntries]
  | cons e rest ih =>
      intro s hpw
      have hpw1 : ∀ e' ∈ rest, e.targetId ≠ e'.targetId :=
        (List.pairwise_cons.mp hpw).1
      have hpw2 : rest.Pairwise (fun a b => a.targetId ≠ b.targetId) :=
        (List.pairwise_cons.mp hpw).2
      rw [processEntries_cons]
      by_cases ha : affects e t
      · have hrest : ∀ e' ∈ rest, ¬ affects e' t := by
          intro e' he' ha'
          exact hpw1 e' he' (getDevTarget_inj ha ha')
        rw [mem_processEntries_of_not_affects hrest]
        cases hi : e.isIntersecting with
        | true =>
            constructor
            · intro _
              exact Or.inl ⟨e, List.mem_cons_self e rest, ha, hi⟩
            · intro _
              exact mem_processEntry_pos ha hi
        | false =>
            constructor
            · intro hmem
              exact absurd hmem (not_mem_processEntry_neg ha hi)
            · rintro (⟨e', he', ha', hi'⟩ | ⟨_, hno⟩)
              · rcases List.mem_cons.mp he' with rfl | he''
                · rw [hi] at hi'; exact absurd hi' (by simp)
                · exact absurd ha' (hrest e' he'')
              · exact absurd ⟨e, List.mem_cons_self e rest, ha, hi⟩ hno
      · rw [ih hpw2, mem_processEntry_of_not_affects ha]
        constructor
        · rintro (⟨e', he', ha', hi'⟩ | ⟨hs, hno⟩)
          · exact Or.inl ⟨e', List.mem_cons_of_mem e he', ha', hi'⟩
          · refine Or.inr ⟨hs, ?_⟩
            rintro ⟨e', he', ha', hi'⟩
            rcases List.mem_cons.mp he' with rfl | he''
            · exact ha ha'
            · exact hno ⟨e', he'', ha', hi'⟩
        · rintro (⟨e', he', ha', hi'⟩ | ⟨hs, hno⟩)
          · rcases List.mem_cons.mp he' with rfl | he''
            · exact absurd ha' ha
            · exact Or.inl ⟨e', he'', ha', hi'⟩
          · refine Or.inr ⟨hs, ?_⟩
            rintro ⟨e', he', ha', hi'⟩
            exact hno ⟨e', List.mem_cons_of_mem e he', ha', hi'⟩

/-- Batches with pairwise-distinct reported elements produce the same
visible-set membership in any arrival order. -/
lemma mem_processEntries_perm (t : String) (s : List String) {es es' : List Entry}
    (hpw : es.Pairwise (fun a b => a.targetId ≠ b.targetId))
    (hperm : es.Perm es') :
    (t ∈ processEntries s es ↔ t ∈ processEntries s es') := by
  have hsymm : Symmetric (fun a b : Entry => a.targetId ≠ b.targetId) :=
    fun a b h e => h e.symm
  have hpw' : es'.Pairwise (fun a b => a.targetId ≠ b.targetId) :=
    (List.Perm.pairwise_iff (fun hab => hsymm hab) hperm).mp hpw
  rw [mem_processEntries_char hpw, mem_processEntries_char hpw']
  constructor
  · rintro (⟨e, he, h1, h2⟩ | ⟨hs, hno⟩)
    · exact Or.inl ⟨e, hperm.mem_iff.mp he, h1, h2⟩
    · refine Or.inr ⟨hs, ?_⟩
      rintro ⟨e, he, h1, h2⟩
      exact hno ⟨e, hperm.mem_iff.mpr he, h1, h2⟩
  · rintro (⟨e, he, h1, h2⟩ | ⟨hs, hno⟩)
    · exact Or.inl ⟨e, hperm.mem_iff.mpr he, h1, h2⟩
    · refine Or.inr ⟨hs, ?_⟩
      rintro ⟨e, he, h1, h2⟩
      exact hno ⟨e, hperm.mem_iff.mp he, h1, h2⟩

lemma processEntry_subset {s : List String} {e : Entry}
    (h : ∀ t ∈ s, t ∈ sectionOrder) :
    ∀ t ∈ processEntry s e, t ∈ sectionOrder := by
  intro t ht
  unfold processEntry at ht
  cases hd : getDevTargetBySectionId e.targetId with
  | none => rw [hd] at ht; exact h t ht
  | some d =>
      rw [hd] at ht
      cases hi : e.isIntersecting with
      | true =>
          rw [hi] at ht
          rcases mem_setAdd.mp ht with h1 | rfl
          · exact h t h1
          · exact getDevTarget_mem hd
      | false =>
          rw [hi] at ht
          exact h t (mem_setDelete.mp ht).1


lemma processEntries_subset {es : List Entry} :
    ∀ {s : List String}, (∀ t ∈ s, t ∈ sectionOrder) →
      ∀ t ∈ processEntries s es, t ∈ sectionOrder := by
  induction es with
  | nil => intro s h; exact h
  | cons e rest ih =>
      intro s h
      rw [processEntries_cons]
      exact ih (processEntry_subset h)

/-! ## Lemmas about find? -/

lemma find?_congr {α : Type} (l : List α) (p q : α → Bool)
    (h : ∀ x ∈ l, p x = q x) : l.find? p = l.find? q := by
  induction l with
  | nil => rfl
  | cons a tl ih =>
      rw [List.find?_cons, List.find?_cons, h a (List.mem_cons_self a tl)]
      cases q a with
      | true => rfl
      | false => exact ih (fun x hx => h x (List.mem_cons_of_mem a hx))

lemma find?_indexOf_le {α : Type} [DecidableEq α] :
    ∀ (l : List α) (p : α → Bool) (m : α), l.find? p = some m →
      ∀ x ∈ l, p x = true → l.indexOf m ≤ l.indexOf x := by
  intro l
  induction l with
  | nil => intro p m h; simp at h
  | cons a tl ih =>
      intro p m h x hx hpx
      by_cases hpa : p a
      · rw [List.find?_cons_of_pos _ hpa] at h
        cases h
        simp
      · rw [List.find?_cons_of_neg _ hpa] at h
        have hm : p m := List.find?_some h
        have hma : a ≠ m := fun e => hpa (e ▸ hm)
        rcases List.mem_cons.mp hx with rfl | hx'
        · exact absurd hpx hpa
        · have hxa : a ≠ x := fun e => hpa (e ▸ hpx)
          rw [List.indexOf_cons_ne _ hma, List.indexOf_cons_ne _ hxa]
          exact Nat.succ_le_succ (ih p m h x hx' hpx)

/-! ## Lemmas about the active-link count -/

lemma countActive_setActiveLink (links : List Link) (t : String) :
    countActive (setActiveLink links t) =
      links.countP (fun l => l.devTarget == some t) := by
  unfold countActive setActiveLink
  rw [List.countP_map]
  rfl

lemma countP_devTarget_le_one {t : String} :
    ∀ {links : List Link}, (links.map (fun l => l.devTarget)).Nodup →
      links.countP (fun l => l.devTarget == some t) ≤ 1 := by
  intro links
  induction links with
  | nil => intro _; simp
  | cons l rest ih =>
      intro hnd
      rw [List.map_cons, List.nodup_cons] at hnd
      rw [List.countP_cons]
      by_cases h : l.devTarget = some t
      · have hzero : rest.countP (fun x => x.devTarget == some t) = 0 := by
          rw [List.countP_eq_zero]
          intro x hx hbeq
          have hx' : x.devTarget = some t := by simpa using hbeq
          exact hnd.1 (by rw [h, ← hx']; exact List.mem_map_of_mem _ hx)
        simp [hzero, h]
      · have : (l.devTarget == some t) = false := by simpa using h
        simpa [this] using ih hnd.2

lemma countP_devTarget_eq_one {links : List Link} {link : Link} {t : String}
    (hnd : (links.map (fun l => l.devTarget)).Nodup)
    (hmem : link ∈ links) (ht : link.devTarget = some t) :
    links.countP (fun l => l.devTarget == some t) = 1 :=
  Nat.le_antisymm (countP_devTarget_le_one hnd)
    (List.countP_pos_iff.mpr ⟨link, hmem, by simp [ht]⟩)

lemma countActive_initActivate {links : List Link}
    (h0 : countActive links ≤ 1) : countActive (initActivate links) ≤ 1 := by
  unfold initActivate
  cases hf : links.find? (fun l => l.isActive) with
  | some l => exact h0
  | none =>
      have hall := List.find?_eq_none.mp hf
      cases links with
      | nil => exact Nat.zero_le 1
      | cons l rest =>
          unfold countActive
          rw [List.countP_cons]
          have hrest : rest.countP (fun l => l.isActive) = 0 := by
            rw [List.countP_eq_zero]
            intro x hx
            exact hall x (List.mem_cons_of_mem l hx)
          simp [hrest]

lemma clickHandler_links_cases (links : List Link) (doc : Doc) (link : Link)
    (ctx : ClickCtx) :
    (clickHandler links doc link ctx).links = links ∨
      ∃ t, (clickHandler links doc link ctx).links = setActiveLink links t := by
  unfold clickHandler
  split
  · exact Or.inl rfl
  · split
    · exact Or.inl rfl
    · split
      · exact Or.inl rfl
      · split
        · exact Or.inl rfl
        · exact Or.inr ⟨_, rfl⟩


lemma observerCallback_visibleSections (st : NavState) (es : List Entry) :
    (observerCallback st es).visibleSections = processEntries st.visibleSections es := by
  unfold observerCallback
  split
  · rfl
  · rfl

lemma observerCallback_links_cases (st : NavState) (es : List Entry) :
    (observerCallback st es).links = st.links ∨
      ∃ t, (observerCallback st es).links = setActiveLink st.links t := by
  unfold observerCallback
  split
  · exact Or.inr ⟨_, rfl⟩
  · exact Or.inl rfl

/-- The fully-guarded branch of the click handler as one equation. -/
lemma clickHandler_success (links : List Link) {doc : Doc} {link : Link}
    {ctx : ClickCtx} {t sid : String} {top h : Int}
    (ht : link.devTarget = some t) (hne : t ≠ "")
    (hmap : sectionMap t = some sid)
    (hsec : getElementById doc sid = some top)
    (hnav : ctx.navBarHeight = some h) :
    clickHandler links doc link ctx =
      ⟨setActiveLink links t, some (top - doc.scrollY + doc.scrollY - h), []⟩ := by
  obtain ⟨dt, act⟩ := link
  simp only at ht
  subst ht
  simp only [clickHandler, if_neg hne, hmap, hsec, hnav, Option.getD_some]

/-- Demo links used by the concrete instances: distinct dev-target values,
exactly the first link active. -/
def demoLinks : List Link := [⟨some "overview", true⟩, ⟨some "floor-plans", false⟩]

/-- The observation batch of the end-to-end example: floor-plans and
browse-homes both intersecting. -/
def demoBatch : List Entry :=
  [⟨"floor-plans-section", true⟩, ⟨"lots-section", true⟩]

/-- The same batch with the entries arriving in the other order. -/
def demoBatchRev : List Entry :=
  [⟨"lots-section", true⟩, ⟨"floor-plans-section", true⟩]

/-! ## Claim theorems -/

/-- C10: the static tables round-trip: for every name in `sectionOrder`,
looking up its section id in `sectionMap` and reversing through
`getDevTargetBySectionId` returns the same name, and the section ids mapped
from `sectionOrder` are pairwise distinct. -/
theorem sectionMap_roundTrip :
    (∀ name ∈ sectionOrder,
        (sectionMap name).bind getDevTargetBySectionId = some name) ∧
    (sectionOrder.map sectionMap).Nodup := by
  decide

/-- Witness for C10 at the name floor-plans. -/
theorem sectionMap_roundTrip_witness :
    (sectionMap "floor-plans").bind getDevTargetBySectionId = some "floor-plans" :=
  sectionMap_roundTrip.1 "floor-plans" (by decide)

/-- C3: if processing an intersection batch leaves the visible set empty,
the observer callback leaves every link untouched: no active flag is added
or removed by that batch. -/
theorem emptyBatch_keeps_links (st : NavState) (es : List Entry)
    (h : processEntries st.visibleSections es = []) :
    (observerCallback st es).links = st.links := by
  unfold observerCallback
  simp only [h]
  rfl

/-- Witness for C3: a batch that removes the only visible section leaves
the demo links untouched. -/
theorem emptyBatch_keeps_links_witness :
    (observerCallback ⟨demoLinks, ["overview"]⟩ [⟨"overview-section", false⟩]).links
      = demoLinks :=
  emptyBatch_keeps_links ⟨demoLinks, ["overview"]⟩ [⟨"overview-section", false⟩]
    (by decide)

/-- C9: in every reachable controller state, the visible set only holds
names from `sectionOrder`: the observer callback inserts only names obtained
from the reverse lookup, and `destroy` clears the set. -/
theorem reachable_visible_subset (st : NavState) (h : Reachable st) :
    ∀ t ∈ st.visibleSections, t ∈ sectionOrder := by
  induction h with
  | start links => intro t ht; exact absurd ht (List.not_mem_nil t)
  | observe st es _ ih =>
      rw [observerCallback_visibleSections]
      exact processEntries_subset ih
  | initStep st _ ih => exact ih
  | clickStep st doc link ctx _ ih => exact ih
  | destroyStep st _ ih => intro t ht; exact absurd ht (List.not_mem_nil t)

/-- Witness for C9: the state reached by one observer batch from a start
state satisfies the inclusion. -/
theorem reachable_visible_subset_witness :
    ((observerCallback ⟨demoLinks, []⟩ demoBatch).visibleSections).all
      (fun t => decide (t ∈ sectionOrder)) = true := by
  apply List.all_eq_true.mpr
  intro t ht
  exact decide_eq_true
    (reachable_visible_subset _
      (Reachable.observe ⟨demoLinks, []⟩ demoBatch (Reachable.start demoLinks)) t ht)

/-- C1: after an observation batch is applied, the chosen active target is
the member of the visible set with the lowest index in `sectionOrder`; a
target is chosen whenever the resulting visible set is nonempty; and for
batches whose entries report pairwise-distinct sections the choice does not
depend on the arrival order of the entries.  The witness instantiates the
end-to-end example: a batch reporting floor-plans and browse-homes both
intersecting resolves to floor-plans in either arrival order. -/
theorem batchActiveTarget_spec (s₀ : List String) (es : List Entry)
    (hsub : ∀ t ∈ s₀, t ∈ sectionOrder) :
    (∀ m, batchActiveTarget s₀ es = some m →
        m ∈ processEntries s₀ es ∧
        ∀ x ∈ processEntries s₀ es,
          sectionOrder.indexOf m ≤ sectionOrder.indexOf x) ∧
    (processEntries s₀ es ≠ [] → (batchActiveTarget s₀ es).isSome) ∧
    (∀ es', es.Pairwise (fun a b => a.targetId ≠ b.targetId) → es.Perm es' →
        batchActiveTarget s₀ es = batchActiveTarget s₀ es') := by
  refine ⟨?_, ?_, ?_⟩
  · intro m hm
    unfold batchActiveTarget at hm
    have hp := List.find?_some hm
    have hmem : m ∈ processEntries s₀ es := by simpa using hp
    refine ⟨hmem, ?_⟩
    intro x hx
    by_cases hxo : x ∈ sectionOrder
    · exact find?_indexOf_le sectionOrder _ m hm x hxo (by simpa using hx)
    · calc sectionOrder.indexOf m ≤ sectionOrder.length := List.indexOf_le_length
        _ = sectionOrder.indexOf x := (List.indexOf_eq_length.mpr hxo).symm
  · intro hne
    obtain ⟨x, hx⟩ := List.exists_mem_of_ne_nil _ hne
    unfold batchActiveTarget
    rw [List.find?_isSome]
    exact ⟨x, processEntries_subset hsub x hx, by simpa using hx⟩
  · intro es' hpw hperm
    unfold batchActiveTarget
    apply find?_congr
    intro t _
    have hiff := mem_processEntries_perm t s₀ hpw hperm
    by_cases hmem : t ∈ processEntries s₀ es
    · have h2 := hiff.mp hmem
      simp [hmem, h2]
    · have h2 : t ∉ processEntries s₀ es' := fun hh => hmem (hiff.mpr hh)
      simp [hmem, h2]

/-- Witness for C1: the end-to-end batch resolves to floor-plans, in both
arrival orders. -/
theorem batchActiveTarget_spec_witness :
    batchActiveTarget [] demoBatch = some "floor-plans" ∧
    batchActiveTarget [] demoBatch = batchActiveTarget [] demoBatchRev :=
  ⟨by decide,
   (batchActiveTarget_spec [] demoBatch (fun t ht => absurd ht (List.not_mem_nil t))).2.2
     demoBatchRev (by decide) (by decide)⟩

/-- C4 counterexample: two links that share the dev-target value overview
and are both marked active in the initial markup stay both active through
the init rAF, and are both activated together by an observer batch that
reports the overview section intersecting. -/
theorem atMostOneActive_counterexample :
    countActive (initActivate [⟨some "overview", true⟩, ⟨some "overview", true⟩]) = 2 ∧
    countActive ((observerCallback ⟨[⟨some "overview", true⟩, ⟨some "overview", true⟩], []⟩
        [⟨"overview-section", true⟩]).links) = 2 := by
  decide

/-- C4 (amended): provided the links carry pairwise-distinct dev-target
attribute values and at most one link is active beforehand, at most one link
is active after the init rAF callback, after any `setActiveLink` run, after
any click, and after any observer batch. -/
theorem atMostOneActive (links : List Link)
    (hnd : (links.map (fun l => l.devTarget)).Nodup)
    (h0 : countActive links ≤ 1) :
    countActive (initActivate links) ≤ 1 ∧
    (∀ t, countActive (setActiveLink links t) ≤ 1) ∧
    (∀ doc link ctx, countActive ((clickHandler links doc link ctx).links) ≤ 1) ∧
    (∀ s es, countActive ((observerCallback ⟨links, s⟩ es).links) ≤ 1) := by
  have hset : ∀ t, countActive (setActiveLink links t) ≤ 1 := by
    intro t
    rw [countActive_setActiveLink]
    exact countP_devTarget_le_one hnd
  refine ⟨countActive_initActivate h0, hset, ?_, ?_⟩
  · intro doc link ctx
    rcases clickHandler_links_cases links doc link ctx with h | ⟨t, h⟩
    · rw [h]; exact h0
    · rw [h]; exact hset t
  · intro s es
    rcases observerCallback_links_cases ⟨links, s⟩ es with h | ⟨t, h⟩
    · rw [h]; exact h0
    · rw [h]; exact hset t

/-- Witness for C4 on the demo links: distinct dev-targets, one active. -/
theorem atMostOneActive_witness :
    countActive ((observerCallback ⟨demoLinks, []⟩ demoBatch).links) ≤ 1 :=
  (atMostOneActive demoLinks (by decide) (by decide)).2.2.2 [] demoBatch

/-- C5: clicking a nav link whose target name is mapped and whose section
exists marks exactly that link active within the same handler run, and the
issued scroll destination is the section document-top offset minus the
nav-bar height.  The link update and the scroll command are produced by the
one synchronous handler, before any scroll completion or observer callback
can run. -/
theorem click_activates_and_scrolls
    (links : List Link) (doc : Doc) (link : Link) (ctx : ClickCtx)
    (t sid : String) (top h : Int)
    (hmem : link ∈ links)
    (hnd : (links.map (fun l => l.devTarget)).Nodup)
    (ht : link.devTarget = some t) (hne : t ≠ "")
    (hmap : sectionMap t = some sid)
    (hsec : getElementById doc sid = some top)
    (hnav : ctx.navBarHeight = some h) :
    (clickHandler links doc link ctx).scrollTo = some (top - h) ∧
    (clickHandler links doc link ctx).links = setActiveLink links t ∧
    countActive ((clickHandler links doc link ctx).links) = 1 ∧
    ∀ l ∈ (clickHandler links doc link ctx).links,
      l.isActive = true → l.devTarget = some t := by
  have hch := clickHandler_success links ht hne hmap hsec hnav
  refine ⟨?_, ?_, ?_, ?_⟩
  · rw [hch]
    have heq : top - doc.scrollY + doc.scrollY - h = top - h := by omega
    rw [heq]
  · rw [hch]
  · rw [hch]
    show countActive (setActiveLink links t) = 1
    rw [countActive_setActiveLink]
    exact countP_devTarget_eq_one hnd hmem ht
  · intro l hl hact
    rw [hch] at hl
    unfold setActiveLink at hl
    obtain ⟨x, _, rfl⟩ := List.mem_map.mp hl
    simpa using hact

/-- Witness for C5: clicking the floor-plans demo link with the section at
document top 1000, scroll position 200 and a nav bar of height 80 scrolls
to 920 and leaves exactly one active link. -/
theorem click_activates_and_scrolls_witness :
    (clickHandler demoLinks ⟨[("floor-plans-section", 1000)], 200⟩
        ⟨some "floor-plans", false⟩ ⟨some 80⟩).scrollTo = some 920 ∧
    countActive ((clickHandler demoLinks ⟨[("floor-plans-section", 1000)], 200⟩
        ⟨some "floor-plans", false⟩ ⟨some 80⟩).links) = 1 := by
  have h := click_activates_and_scrolls demoLinks
      ⟨[("floor-plans-section", 1000)], 200⟩ ⟨some "floor-plans", false⟩ ⟨some 80⟩
      "floor-plans" "floor-plans-section" 1000 80
      (by decide) (by decide) rfl (by decide) (by decide) (by decide) rfl
  refine ⟨?_, h.2.2.1⟩
  rw [h.1]
  decide

/-- C8 counterexample: clicking a link with the unmapped target bogus
leaves the links and the scroll untouched but logs nothing, refuting the
part of the claim that says every such click logs a diagnostic message. -/
theorem click_failure_counterexample :
    (clickHandler [⟨some "bogus", false⟩] ⟨[], 0⟩ ⟨some "bogus", false⟩ ⟨none⟩).links
        = [⟨some "bogus", false⟩] ∧
    (clickHandler [⟨some "bogus", false⟩] ⟨[], 0⟩ ⟨some "bogus", false⟩ ⟨none⟩).scrollTo
        = none ∧
    (clickHandler [⟨some "bogus", false⟩] ⟨[], 0⟩ ⟨some "bogus", false⟩ ⟨none⟩).logs
        = [] := by
  decide

/-- C8 (amended): a click whose target name is unmapped is a silent no-op
that logs nothing; a click whose mapped section is absent from the document
logs the diagnostic message; in both cases nothing is thrown, no scroll is
issued and every active flag is left unchanged. -/
theorem click_failure_noop (links : List Link) (doc : Doc) (link : Link)
    (ctx : ClickCtx) (t : String)
    (ht : link.devTarget = some t) (hne : t ≠ "") :
    (sectionMap t = none →
      clickHandler links doc link ctx = ⟨links, none, []⟩) ∧
    (∀ sid, sectionMap t = some sid → getElementById doc sid = none →
      clickHandler links doc link ctx =
        ⟨links, none,
          ["StickyNavController: Section #" ++ sid ++ " not found."]⟩) := by
  obtain ⟨dt, act⟩ := link
  simp only at ht
  subst ht
  constructor
  · intro hmap
    simp only [clickHandler, if_neg hne, hmap]
  · intro sid hmap hsec
    simp only [clickHandler, if_neg hne, hmap, hsec]

/-- Witness for C8: the target process is mapped to process-section, which
is absent from the empty document, so the click logs the diagnostic and
changes nothing. -/
theorem click_failure_noop_witness :
    clickHandler [⟨some "process", false⟩] ⟨[], 0⟩ ⟨some "process", false⟩ ⟨none⟩ =
      ⟨[⟨some "process", false⟩], none,
        ["StickyNavController: Section #process-section not found."]⟩ := by
  have h := (click_failure_noop [⟨some "process", false⟩] ⟨[], 0⟩
      ⟨some "process", false⟩ ⟨none⟩ "process" rfl (by decide)).2
      "process-section" (by decide) (by decide)
  rw [h]
  decide

/-- C2 counterexample: opening a gallery, letting its rAF add is-open, then
opening a second gallery leaves two overlay elements attached to the body,
refuting the claim that exactly one live overlay element is present. -/
theorem openGallery_counterexample :
    (openGallery (galleryRAF (openGallery ⟨none, [], 0⟩ ["a.jpg"])) ["b.jpg"]).body.length
      = 2 := by
  decide

/-- C2 (amended): opening while an overlay is open invokes close on it
synchronously before building the new one: the first overlay loses its
is-open state, the controller reference moves to a fresh overlay that
carries the new image set, but the first overlay element is still attached
to the body until its close transition ends, so two overlay elements are
present afterwards. -/
theorem openGallery_while_open (st : GState) (imgs : List String) (oid : Nat)
    (href : st.overlayRef = some oid)
    (hmem : ∃ o ∈ st.body, o.oid = oid)
    (hfresh : ∀ o ∈ st.body, o.oid < st.nextId) :
    (openGallery st imgs).body.length = st.body.length + 1 ∧
    (openGallery st imgs).overlayRef = some st.nextId ∧
    oid ≠ st.nextId ∧
    (∃ o ∈ (openGallery st imgs).body,
        o.oid = st.nextId ∧ o.imgs = imgs ∧ o.isOpen = false) ∧
    (∃ o ∈ (openGallery st imgs).body, o.oid = oid ∧ o.isOpen = false) := by
  have hclose : closeGallery st =
      { st with body := st.body.map (fun o =>
          if o.oid = oid then { o with isOpen := false, hasCloseListener := true }
          else o) } := by
    simp only [closeGallery, href]
  have hopen : openGallery st imgs =
      { overlayRef := some st.nextId,
        body := (st.body.map (fun o =>
          if o.oid = oid then { o with isOpen := false, hasCloseListener := true }
          else o))
            ++ [{ oid := st.nextId, imgs := imgs, isOpen := false,
                  hasCloseListener := false }],
        nextId := st.nextId + 1 } := by
    unfold openGallery
    rw [hclose]
  obtain ⟨o₀, ho₀, hoid⟩ := hmem
  have hlt := hfresh o₀ ho₀
  rw [hoid] at hlt
  refine ⟨?_, ?_, ?_, ?_, ?_⟩
  · rw [hopen]
    simp [List.length_append, List.length_map]
  · rw [hopen]
  · intro hcontra
    rw [hcontra] at hlt
    exact lt_irrefl _ hlt
  · rw [hopen]
    exact ⟨_, List.mem_append_right _ (List.mem_singleton_self _), rfl, rfl, rfl⟩
  · rw [hopen]
    refine ⟨{ o₀ with isOpen := false, hasCloseListener := true }, ?_, hoid, rfl⟩
    apply List.mem_append_left
    have harm : (fun o =>
        if o.oid = oid then { o with isOpen := false, hasCloseListener := true }
        else o) o₀ = { o₀ with isOpen := false, hasCloseListener := true } := by
      simp only [if_pos hoid]
    rw [← harm]
    exact List.mem_map_of_mem _ ho₀

/-- Witness for C2 at a concrete open state: a second open leaves two
overlay elements and points the controller at overlay 1. -/
theorem openGallery_while_open_witness :
    (openGallery ⟨some 0, [⟨0, ["a.jpg"], true, false⟩], 1⟩ ["b.jpg"]).body.length = 2 ∧
    (openGallery ⟨some 0, [⟨0, ["a.jpg"], true, false⟩], 1⟩ ["b.jpg"]).overlayRef
      = some 1 := by
  have h := openGallery_while_open ⟨some 0, [⟨0, ["a.jpg"], true, false⟩], 1⟩
      ["b.jpg"] 0 rfl
      ⟨⟨0, ["a.jpg"], true, false⟩, List.mem_singleton_self _, rfl⟩
      (by decide)
  exact ⟨h.1, h.2.1⟩

/-- C6: strip centering issues no scroll above the 767px breakpoint, and
below it the issued offset is the centering offset (link offsetLeft plus
half the link width minus half the strip width) clamped to the range from 0
to scrollWidth minus offsetWidth, hence never outside that range. -/
theorem scrollLinkIntoStrip_clamped (g : StripGeom) (stripPresent : Bool) :
    (g.innerWidth > 767 → scrollLinkIntoStrip g stripPresent = none) ∧
    (g.innerWidth ≤ 767 → stripPresent = true →
      0 ≤ g.stripScrollWidth - g.stripOffsetWidth →
      scrollLinkIntoStrip g stripPresent =
        some (min (max 0 (g.linkOffsetLeft + g.linkOffsetWidth / 2 - g.stripOffsetWidth / 2))
          (g.stripScrollWidth - g.stripOffsetWidth)) ∧
      0 ≤ min (max 0 (g.linkOffsetLeft + g.linkOffsetWidth / 2 - g.stripOffsetWidth / 2))
          (g.stripScrollWidth - g.stripOffsetWidth) ∧
      min (max 0 (g.linkOffsetLeft + g.linkOffsetWidth / 2 - g.stripOffsetWidth / 2))
          (g.stripScrollWidth - g.stripOffsetWidth)
        ≤ g.stripScrollWidth - g.stripOffsetWidth) := by
  constructor
  · intro hgt
    unfold scrollLinkIntoStrip
    rw [if_pos hgt]
  · intro hle hstrip hmax
    refine ⟨?_, le_min (le_max_left 0 _) hmax, min_le_right _ _⟩
    unfold scrollLinkIntoStrip
    rw [if_neg (not_lt.mpr hle), hstrip]
    simp

/-- Witness for C6: on a 375px viewport with a 375px strip of scroll width
800, centering the first link (offsetLeft 0, width 100) clamps to 0. -/
theorem scrollLinkIntoStrip_clamped_witness :
    scrollLinkIntoStrip ⟨375, 375, 800, 0, 100⟩ true = some 0 := by
  have h := (scrollLinkIntoStrip_clamped ⟨375, 375, 800, 0, 100⟩ true).2
      (by norm_num) rfl (by norm_num)
  rw [h.1]
  norm_num [min_def, max_def]

/-- The first entry of `GALLERY_CONFIGS`, used by the concrete instances. -/
def mainConfig : GalleryConfig :=
  ⟨"image-gallery", "hidden-main-gallery-images", ".hidden-main-gallery-collection"⟩

/-- A demo CMS document: one matching image and one unrelated image. -/
def demoCmsDoc : List ImgElem :=
  [⟨"a.jpg", some "hidden-main-gallery-images"⟩, ⟨"b.jpg", none⟩]

/-- Three freshly appended matching image nodes. -/
def demoNewImgs : List ImgElem :=
  [⟨"x1.jpg", some "hidden-main-gallery-images"⟩,
   ⟨"x2.jpg", some "hidden-main-gallery-images"⟩,
   ⟨"x3.jpg", some "hidden-main-gallery-images"⟩]

/-- C7: the mutation-driven refresh replaces the cache entry of a config
wholesale with the document-ordered list of all images matching its image
attribute, so appending matching images under the watched container grows
the cache by exactly their number. -/
theorem cache_wholesale_refresh (caches : String → List ImgElem)
    (config : GalleryConfig) (doc ns : List ImgElem)
    (hmatch : ∀ n ∈ ns, n.devTarget = some config.imageAttr) :
    refreshTrigger caches config (doc ++ ns) config.trigger
        = queryImages (doc ++ ns) config.imageAttr ∧
    refreshTrigger caches config (doc ++ ns) config.trigger
        = queryImages doc config.imageAttr ++ ns ∧
    (refreshTrigger caches config (doc ++ ns) config.trigger).length
        = (queryImages doc config.imageAttr).length + ns.length := by
  have h1 : refreshTrigger caches config (doc ++ ns) config.trigger
      = queryImages (doc ++ ns) config.imageAttr := by
    unfold refreshTrigger
    rw [if_pos rfl]
  have h2 : queryImages (doc ++ ns) config.imageAttr
      = queryImages doc config.imageAttr ++ ns := by
    unfold queryImages
    rw [List.filter_append]
    congr 1
    rw [List.filter_eq_self]
    intro a ha
    simp [hmatch a ha]
  refine ⟨h1, h1.trans h2, ?_⟩
  rw [h1, h2, List.length_append]

/-- Witness for C7: appending the three matching demo images grows the main
gallery cache from 1 to 4 entries. -/
theorem cache_wholesale_refresh_witness :
    (refreshTrigger (fun _ => []) mainConfig (demoCmsDoc ++ demoNewImgs)
        mainConfig.trigger).length = 1 + 3 := by
  have h := (cache_wholesale_refresh (fun _ => []) mainConfig
      demoCmsDoc demoNewImgs (by decide)).2.2
  rw [h]
  decide

end Homebound
